import Mathlib

/-
Verification of the Memorial Descritivo retrieval-and-extraction pipeline
(`gui_memorial_descritivo_v2.py`).  The GUI orchestrator
(`MemorialGUI_V2.validate_inputs`, `process_memorial`, `process_thread`) is
embedded shallowly: every external call made by the thread (network probe,
shard search, copy, conversion, extraction, rendering) is a field of an
environment record, and a run is a pure function from the environment and
the GUI state to a trace of observable events (progress updates, log lines,
file writes, dialogs) together with its outcome.  The two leaf functions the
GUI imports from `process_memorial_descritivo_v2.py` (absent from the
sources) are modelled from the specification where indicated.
-/

deriving instance DecidableEq for Except

namespace Memorial

/-- Modelled from the spec: the protocol-number formatter
`formatar_prenotacao` lives in `process_memorial_descritivo_v2.py`, which is
imported by the GUI but is not among the sources.  Per the spec it strips
all non-digit characters, fails with a `ValidationError` when the remainder
is empty or exceeds the canonical width of 8 digits, and otherwise pads the
remainder with leading zeros to 8 digits. -/
def formatar_prenotacao (raw : String) : Except String String :=
  let digits := raw.toList.filter Char.isDigit
  if digits.length = 0 then
    Except.error "ValidationError: prenotação vazia"
  else if 8 < digits.length then
    Except.error "ValidationError: prenotação excede 8 dígitos"
  else
    Except.ok (String.mk (List.replicate (8 - digits.length) '0' ++ digits))

/-- A shard folder of the network store: its starting protocol number and
its textual label. -/
structure ShardFolder where
  start : Nat
  label : String
deriving DecidableEq

/-- Left-pad a string with zeros to the given width. -/
def padZeros (s : String) (w : Nat) : String :=
  String.mk (List.replicate (w - s.length) '0' ++ s.toList)

/-- Modelled from the spec: the shard locator `calcular_pasta_milhar` lives
in `process_memorial_descritivo_v2.py`, which is imported by the GUI but is
not among the sources.  Per the spec it is a pure function mapping a
protocol number to the folder that groups numbers by thousands:
`shard_start = floor(n / 1000) * 1000`, the label being the zero-padded
string of `shard_start` (six digits in the observed layout, e.g. folder
`229000` for numbers 229000–229999). -/
def calcular_pasta_milhar (n : Nat) : ShardFolder :=
  let shard_start := n / 1000 * 1000
  { start := shard_start, label := padZeros (toString shard_start) 6 }

/-- The operating mode chosen in the GUI: `normal` (direct PDF) or `incra`
(search by prenotação). -/
inductive Mode
  | normal
  | incra
deriving DecidableEq

/-- A file-system path, as its list of components. -/
abbrev PathT := List String

/-- The pipeline stages whose work `process_thread` attempts (each maps to
one external call site in the thread). -/
inductive Stage
  | netProbe
  | fmtPren
  | search
  | stageCopy
  | convert
  | extractIncra
  | extractDirect
  | writeExcel
  | writeWord
deriving DecidableEq

/-- The kinds of files the thread writes. -/
inductive FileKind
  | staged
  | converted
  | excel
  | word
deriving DecidableEq

/-- Observable events of a run: progress-bar updates, log lines, attempts
of a stage's external work, file writes, dialog boxes and the start-button
state changes. -/
inductive Ev
  | progress (value : Nat) (status : String)
  | logMsg (msg : String) (tag : String)
  | work (st : Stage)
  | fileWrite (kind : FileKind) (path : PathT)
  | dialogInfo (msg : String)
  | dialogError (msg : String)
  | dialogWarning (msg : String)
  | btnDisable
  | btnEnable
deriving DecidableEq

/-- The extracted table: `table_data['data']` rows. -/
structure TableData where
  data : List (List String)
deriving DecidableEq

/-- The GUI state fields consulted by `validate_inputs`, `process_memorial`
and `process_thread`. -/
structure GuiState where
  processing : Bool
  api_key : String
  modo : Mode
  pdf_path : PathT
  prenotacao : String
  gerar_excel : Bool
  gerar_word : Bool
deriving DecidableEq

/-- The external collaborators of the thread, as observed by the GUI: the
configured network root, file-system existence, the network probe, and the
imported pipeline functions.  Fallible calls return `Except`; the message is
what the raised exception would carry. -/
structure Env where
  base_path : String
  file_exists : PathT → Bool
  testar_acesso_rede : Bool
  buscar_arquivo_incra : String → Option PathT
  copiar_para_downloads : PathT → String → Except String PathT
  converter_tiff_para_pdf : PathT → Except String PathT
  extrair_memorial_incra : PathT → String → Except String TableData
  extract_table_from_pdf : PathT → String → Except String TableData
  create_excel_file : TableData → PathT → Except String Unit
  create_word_file : TableData → PathT → Except String Unit

/-- The progress percentage `process_thread` reports just before each
stage's work. -/
def stagePct : Stage → Nat
  | Stage.netProbe => 3
  | Stage.fmtPren => 5
  | Stage.search => 10
  | Stage.stageCopy => 20
  | Stage.convert => 30
  | Stage.extractIncra => 40
  | Stage.extractDirect => 10
  | Stage.writeExcel => 70
  | Stage.writeWord => 85

/-- The status string `process_thread` reports just before each stage's
work. -/
def stageStatus : Stage → String
  | Stage.netProbe => "Testando acesso à rede..."
  | Stage.fmtPren => "Formatando prenotação..."
  | Stage.search => "Buscando arquivo na rede..."
  | Stage.stageCopy => "Copiando para Downloads..."
  | Stage.convert => "Convertendo TIFF → PDF..."
  | Stage.extractIncra => "Extraindo dados..."
  | Stage.extractDirect => "Conectando com API..."
  | Stage.writeExcel => "Gerando Excel..."
  | Stage.writeWord => "Gerando Word..."

/-- The events emitted when a stage is attempted: its progress update, the
log lines printed before the call, then the call itself. -/
def attemptEvents (stg : Stage) (logs : List (String × String)) : List Ev :=
  Ev.progress (stagePct stg) (stageStatus stg) ::
    (logs.map (fun q => Ev.logMsg q.1 q.2) ++ [Ev.work stg])

/-- The message of the exception `process_thread` raises when
`testar_acesso_rede()` returns false. -/
def msgNetErr (bp : String) : String :=
  "Não foi possível acessar a rede do INCRA!\n\nVerifique:\n1. Conexão com a rede\n2. Permissões de acesso\n3. Caminho: " ++ bp

/-- `Path(p).parent.name` on the component representation. -/
def parentName (p : PathT) : String :=
  (p.dropLast.getLast?).getD ""

/-- Render a path for display. -/
def renderPath (p : PathT) : String :=
  String.intercalate "/" p

/-- The normal-mode part of the `try` block of `process_thread`: progress,
log, then the direct extraction call.  Returns the events and either the
raised message or the table with the output directory and file prefix. -/
def normalBody (env : Env) (s : GuiState) :
    List Ev × Except String (TableData × PathT × String) :=
  let e0 := attemptEvents Stage.extractDirect [("📡 Processando PDF...", "info")]
  match env.extract_table_from_pdf s.pdf_path s.api_key with
  | Except.error m => (e0, Except.error m)
  | Except.ok td => (e0, Except.ok (td, s.pdf_path.dropLast, "output"))

/-- The INCRA-mode part of the `try` block of `process_thread`: network
probe, prenotação formatting, shard search, copy to Downloads, TIFF→PDF
conversion, then extraction, each preceded by its progress update and log
lines, aborting with the raised message at the first failure. -/
def incraBody (env : Env) (s : GuiState) :
    List Ev × Except String (TableData × PathT × String) :=
  let e0 := attemptEvents Stage.netProbe [("🔌 Testando acesso à rede INCRA...", "incra")]
  if env.testar_acesso_rede = false then
    (e0, Except.error (msgNetErr env.base_path))
  else
    let e1 := e0 ++ [Ev.logMsg "✅ Rede acessível!" "success"] ++
      attemptEvents Stage.fmtPren []
    match formatar_prenotacao s.prenotacao with
    | Except.error m => (e1, Except.error m)
    | Except.ok f =>
      let e2 := e1 ++ [Ev.logMsg ("✅ Prenotação: " ++ f) "incra"] ++
        attemptEvents Stage.search [("🔍 Buscando na rede INCRA...", "incra")]
      match env.buscar_arquivo_incra f with
      | none => (e2, Except.error "Arquivo não encontrado na rede do INCRA!")
      | some tiff =>
        let e3 := e2 ++ [Ev.logMsg "✅ Arquivo encontrado!" "success"] ++
          attemptEvents Stage.stageCopy []
        match env.copiar_para_downloads tiff f with
        | Except.error m => (e3, Except.error m)
        | Except.ok loc =>
          let e4 := e3 ++ [Ev.fileWrite FileKind.staged loc,
              Ev.logMsg ("📁 Copiado para: " ++ parentName loc) "success"] ++
            attemptEvents Stage.convert [("🔄 Convertendo TIFF para PDF...", "info")]
          match env.converter_tiff_para_pdf loc with
          | Except.error m => (e4, Except.error m)
          | Except.ok pdf =>
            let e5 := e4 ++ [Ev.fileWrite FileKind.converted pdf,
                Ev.logMsg "✅ PDF criado" "success"] ++
              attemptEvents Stage.extractIncra [("📊 Extraindo Memorial do INCRA...", "incra")]
            match env.extrair_memorial_incra pdf s.api_key with
            | Except.error m => (e5, Except.error m)
            | Except.ok td =>
              (e5, Except.ok (td, pdf.dropLast, "prenotacao_" ++ f))

/-- The Excel branch of the output-generation part of the thread: if
selected, progress, write `<prefixo>.xlsx` into the output directory, log.
Returns the generated-file label for the success dialog. -/
def excelStep (env : Env) (s : GuiState) (td : TableData)
    (output_dir : PathT) (prefixo : String) :
    List Ev × Except String (Option String) :=
  if s.gerar_excel = true then
    let xlsx := output_dir ++ [prefixo ++ ".xlsx"]
    let e1 := attemptEvents Stage.writeExcel []
    match env.create_excel_file td xlsx with
    | Except.error m => (e1, Except.error m)
    | Except.ok _ =>
      (e1 ++ [Ev.fileWrite FileKind.excel xlsx,
          Ev.logMsg ("✅ Excel: " ++ (prefixo ++ ".xlsx")) "success"],
        Except.ok (some ("📊 " ++ (prefixo ++ ".xlsx"))))
  else ([], Except.ok none)

/-- The Word branch of the output-generation part of the thread. -/
def wordStep (env : Env) (s : GuiState) (td : TableData)
    (output_dir : PathT) (prefixo : String) :
    List Ev × Except String (Option String) :=
  if s.gerar_word = true then
    let docx := output_dir ++ [prefixo ++ ".docx"]
    let e1 := attemptEvents Stage.writeWord []
    match env.create_word_file td docx with
    | Except.error m => (e1, Except.error m)
    | Except.ok _ =>
      (e1 ++ [Ev.fileWrite FileKind.word docx,
          Ev.logMsg ("✅ Word: " ++ (prefixo ++ ".docx")) "success"],
        Except.ok (some ("📝 " ++ (prefixo ++ ".docx"))))
  else ([], Except.ok none)

/-- The separator line the thread logs around the completion banner. -/
def sepLine : String := String.mk (List.replicate 50 '=')

/-- The tail of the `try` block shared by both modes: report the extracted
row count, generate the selected artifacts, then the completion banner and
success dialog.  Returns the generated-file labels. -/
def renderTail (env : Env) (s : GuiState) (td : TableData)
    (output_dir : PathT) (prefixo : String) :
    List Ev × Except String (List String) :=
  let n := td.data.length
  let e0 := [Ev.progress 60 ("Dados extraídos: " ++ toString n ++ " linhas"),
             Ev.logMsg ("✅ Tabela extraída: " ++ toString n ++ " linhas") "success"]
  match excelStep env s td output_dir prefixo with
  | (eX, Except.error m) => (e0 ++ eX, Except.error m)
  | (eX, Except.ok ax) =>
    match wordStep env s td output_dir prefixo with
    | (eW, Except.error m) => (e0 ++ eX ++ eW, Except.error m)
    | (eW, Except.ok aw) =>
      let names := ax.toList ++ aw.toList
      let fin := [Ev.progress 100 "Concluído!",
        Ev.logMsg sepLine "success",
        Ev.logMsg "✨ PROCESSAMENTO CONCLUÍDO!" "success",
        Ev.logMsg ("📂 Local: " ++ renderPath output_dir) "info",
        Ev.logMsg sepLine "success",
        Ev.dialogInfo ("Processamento concluído!\n\n" ++
          String.intercalate "\n" names ++
          "\n\n📂 Local: " ++ renderPath output_dir)]
      (e0 ++ eX ++ eW ++ fin, Except.ok names)

/-- The whole `try` block of `process_thread`: mode-specific front, then the
shared rendering tail. -/
def tryBody (env : Env) (s : GuiState) : List Ev × Except String (List String) :=
  let front := match s.modo with
    | Mode.normal => normalBody env s
    | Mode.incra => incraBody env s
  match front with
  | (eB, Except.error m) => (eB, Except.error m)
  | (eB, Except.ok (td, output_dir, prefixo)) =>
    match renderTail env s td output_dir prefixo with
    | (eT, r) => (eB ++ eT, r)

/-- The events of the `except` handler of `process_thread`: the error log
line carrying the raised message verbatim, then the progress reset with the
terminal failure status.  The handler also schedules
`messagebox.showerror` through `root.after` in a lambda that reads the
except-target `ex`, but Python deletes that binding when the except clause
ends, so the deferred callback raises `NameError` and the error dialog is
never actually shown; hence no dialog event is emitted here. -/
def errEvents (m : String) : List Ev :=
  [Ev.logMsg ("❌ ERRO: " ++ m) "error",
   Ev.progress 0 "Erro no processamento!"]

/-- The observable result of one `process_thread` run: its event trace, its
outcome, and the in-flight flag / start-button state after the `finally`
block. -/
structure ThreadResult where
  events : List Ev
  outcome : Except String (List String)
  processing_after : Bool
  btn_enabled_after : Bool
deriving DecidableEq

/-- `MemorialGUI_V2.process_thread`: run the `try` block; on an exception
run the handler; in both cases the `finally` block re-enables the start
button and clears the in-flight flag. -/
def process_thread (env : Env) (s : GuiState) : ThreadResult :=
  match tryBody env s with
  | (evs, Except.ok names) =>
    { events := evs ++ [Ev.btnEnable], outcome := Except.ok names,
      processing_after := false, btn_enabled_after := true }
  | (evs, Except.error m) =>
    { events := evs ++ errEvents m ++ [Ev.btnEnable], outcome := Except.error m,
      processing_after := false, btn_enabled_after := true }

/-- The mode-specific checks of `MemorialGUI_V2.validate_inputs`: a PDF must
be chosen and exist in normal mode; a prenotação must be given in INCRA
mode.  Returns the dialog shown on failure. -/
def validate_mode_inputs (env : Env) (s : GuiState) : Option Ev :=
  match s.modo with
  | Mode.normal =>
    if s.pdf_path = [] then some (Ev.dialogError "Nenhum arquivo PDF selecionado!")
    else if env.file_exists s.pdf_path = false then
      some (Ev.dialogError "Arquivo não encontrado!")
    else none
  | Mode.incra =>
    if s.prenotacao = "" then
      some (Ev.dialogError "Número da prenotação não informado!")
    else none

/-- `MemorialGUI_V2.validate_inputs`: API key first, then the mode-specific
checks, then at least one output format.  Returns the dialog shown on
failure, `none` when the inputs are valid. -/
def validate_inputs (env : Env) (s : GuiState) : Option Ev :=
  if s.api_key = "" then some (Ev.dialogError "API Key não configurada!")
  else
    match validate_mode_inputs env s with
    | some e => some e
    | none =>
      if s.gerar_excel = false ∧ s.gerar_word = false then
        some (Ev.dialogWarning "Selecione pelo menos um tipo de arquivo para gerar!")
      else none

/-- The observable result of one `process_memorial` invocation: the state
afterwards, the events emitted synchronously, and whether the worker thread
was started. -/
structure MemorialResult where
  state : GuiState
  events : List Ev
  thread_started : Bool
deriving DecidableEq

/-- `MemorialGUI_V2.process_memorial`: reject when a run is in flight,
report a validation failure synchronously, otherwise disable the button,
set the in-flight flag and start the worker thread. -/
def process_memorial (env : Env) (s : GuiState) : MemorialResult :=
  if s.processing = true then
    { state := s,
      events := [Ev.dialogWarning "Já existe um processamento em andamento."],
      thread_started := false }
  else
    match validate_inputs env s with
    | some e => { state := s, events := [e], thread_started := false }
    | none =>
      { state := { s with processing := true },
        events := [Ev.btnDisable], thread_started := true }

/-- Event `a` occurs in `l` strictly before a later occurrence of `b`. -/
@[reducible]
def evBefore (a b : Ev) (l : List Ev) : Prop :=
  List.Sublist [a, b] l

/-- A trace in which every attempted stage was announced first: each `work`
event is preceded by the progress update carrying that stage's percentage
and status string. -/
def goodTrace (l : List Ev) : Prop :=
  ∀ st : Stage, Ev.work st ∈ l →
    evBefore (Ev.progress (stagePct st) (stageStatus st)) (Ev.work st) l

/-- The dialogs `validate_inputs` can show: all report a validation
failure. -/
def validationReport (e : Ev) : Prop :=
  e = Ev.dialogError "API Key não configurada!" ∨
  e = Ev.dialogError "Nenhum arquivo PDF selecionado!" ∨
  e = Ev.dialogError "Arquivo não encontrado!" ∨
  e = Ev.dialogError "Número da prenotação não informado!" ∨
  e = Ev.dialogWarning "Selecione pelo menos um tipo de arquivo para gerar!"

/-- The paths written with a given file kind during a trace. -/
def writesOf (k : FileKind) (l : List Ev) : List PathT :=
  l.filterMap fun e => match e with
    | Ev.fileWrite k2 p => if k2 = k then some p else none
    | _ => none

/-- A concrete environment in which every external call succeeds. -/
def envOk : Env where
  base_path := "Z:"
  file_exists := fun _ => true
  testar_acesso_rede := true
  buscar_arquivo_incra := fun _ => some ["Z:", "229000", "00229885.tif"]
  copiar_para_downloads := fun _ f => Except.ok ["C:", "Downloads", f, "00229885.tif"]
  converter_tiff_para_pdf := fun p => Except.ok (p.dropLast ++ ["00229885.pdf"])
  extrair_memorial_incra := fun _ _ => Except.ok { data := [["v1", "v2"]] }
  extract_table_from_pdf := fun _ _ => Except.ok { data := [["v1", "v2"]] }
  create_excel_file := fun _ _ => Except.ok ()
  create_word_file := fun _ _ => Except.ok ()

/-- The all-success environment with the network store unreachable. -/
def envDown : Env :=
  { envOk with testar_acesso_rede := false }

/-- A concrete idle GUI state configured for an INCRA-mode run. -/
def sIncra : GuiState where
  processing := false
  api_key := "AIzaTest"
  modo := Mode.incra
  pdf_path := []
  prenotacao := "229885"
  gerar_excel := true
  gerar_word := true

/-- A concrete idle GUI state configured for a normal-mode run. -/
def sNormal : GuiState where
  processing := false
  api_key := "AIzaTest"
  modo := Mode.normal
  pdf_path := ["C:", "docs", "memorial.pdf"]
  prenotacao := ""
  gerar_excel := true
  gerar_word := true

theorem evBefore_append_left {a b : Ev} {l₁ l₂ : List Ev} (h : evBefore a b l₁) :
    evBefore a b (l₁ ++ l₂) :=
  h.trans (List.sublist_append_left l₁ l₂)

theorem evBefore_append_right {a b : Ev} {l₁ l₂ : List Ev} (h : evBefore a b l₂) :
    evBefore a b (l₁ ++ l₂) :=
  h.trans (List.sublist_append_right l₁ l₂)

theorem evBefore_of_mem_append {a b : Ev} {l₁ l₂ : List Ev} (ha : a ∈ l₁) (hb : b ∈ l₂) :
    evBefore a b (l₁ ++ l₂) :=
  List.Sublist.append (List.singleton_sublist.mpr ha) (List.singleton_sublist.mpr hb)

theorem evBefore_mem_left {a b : Ev} {l : List Ev} (h : evBefore a b l) : a ∈ l :=
  h.subset (by simp)

theorem goodTrace_append {l₁ l₂ : List Ev} (h₁ : goodTrace l₁) (h₂ : goodTrace l₂) :
    goodTrace (l₁ ++ l₂) := by
  intro st hst
  rcases List.mem_append.mp hst with h | h
  · exact evBefore_append_left (h₁ st h)
  · exact evBefore_append_right (h₂ st h)

theorem goodTrace_of_no_work {l : List Ev} (h : ∀ st : Stage, Ev.work st ∉ l) :
    goodTrace l :=
  fun st hst => absurd hst (h st)

theorem goodTrace_attempt (stg : Stage) (logs : List (String × String)) :
    goodTrace (attemptEvents stg logs) := by
  intro st hst
  have hstg : st = stg := by
    simp only [attemptEvents, List.mem_cons, List.mem_append, List.mem_map,
      List.mem_singleton, List.not_mem_nil, or_false, Ev.work.injEq] at hst
    simp at hst
    exact hst
  subst hstg
  exact List.Sublist.cons₂ _ (List.sublist_append_right _ _)

/-- Claim C1: for every n ≥ 0 the shard locator is pure with
`locate(n).start = floor(n/1000)*1000` and label the zero-padded string of
that start; 229000 and 229999 share a folder while 230000 gets a different
one. -/
theorem c1_shard_locator :
    (∀ n : Nat, (calcular_pasta_milhar n).start = n / 1000 * 1000) ∧
    (∀ n : Nat, (calcular_pasta_milhar n).label = padZeros (toString (n / 1000 * 1000)) 6) ∧
    calcular_pasta_milhar 229000 = calcular_pasta_milhar 229999 ∧
    calcular_pasta_milhar 230000 ≠ calcular_pasta_milhar 229000 ∧
    calcular_pasta_milhar 230000 ≠ calcular_pasta_milhar 229999 :=
  ⟨fun _ => rfl, fun _ => rfl, by decide, by decide, by decide⟩

/-- Claim C2: formatting a raw protocol-number string succeeds exactly when
the digit remainder has between 1 and 8 digits, returning it zero-padded to
exactly 8 digits, and fails with a ValidationError otherwise. -/
theorem c2_formatar_prenotacao (raw : String) (d : List Char)
    (hd : d = raw.toList.filter Char.isDigit) :
    (1 ≤ d.length → d.length ≤ 8 →
      formatar_prenotacao raw =
        Except.ok (String.mk (List.replicate (8 - d.length) '0' ++ d)) ∧
      (String.mk (List.replicate (8 - d.length) '0' ++ d)).length = 8) ∧
    ((d.length = 0 ∨ 8 < d.length) → ∃ m, formatar_prenotacao raw = Except.error m) := by
  subst hd
  constructor
  · intro h1 h8
    constructor
    · unfold formatar_prenotacao
      rw [if_neg (by omega), if_neg (by omega)]
    · simp only [String.length, String.mk, List.length_append, List.length_replicate]
      omega
  · rintro (h | h) <;> unfold formatar_prenotacao
    · rw [if_pos h]
      exact ⟨_, rfl⟩
    · rw [if_neg (by omega), if_pos h]
      exact ⟨_, rfl⟩

theorem c2_witness :
    ("22.98-85".toList.filter Char.isDigit = "22.98-85".toList.filter Char.isDigit) ∧
    formatar_prenotacao "22.98-85" = Except.ok "00229885" ∧
    (∃ m, formatar_prenotacao "a-b-c" = Except.error m) ∧
    (∃ m, formatar_prenotacao "123456789" = Except.error m) :=
  ⟨rfl,
   ((c2_formatar_prenotacao "22.98-85" _ rfl).1 (by decide) (by decide)).1.trans (by decide),
   (c2_formatar_prenotacao "a-b-c" _ rfl).2 (Or.inl (by decide)),
   (c2_formatar_prenotacao "123456789" _ rfl).2 (Or.inr (by decide))⟩

/-- Claim C3: while a run is in flight, a second invocation of
`process_memorial` is rejected with a warning dialog, starts no thread,
executes no pipeline stage, and leaves the state unchanged. -/
theorem c3_single_flight (env : Env) (s : GuiState) (h : s.processing = true) :
    process_memorial env s =
      { state := s,
        events := [Ev.dialogWarning "Já existe um processamento em andamento."],
        thread_started := false } := by
  unfold process_memorial
  rw [if_pos h]

theorem c3_witness :
    ({ sIncra with processing := true } : GuiState).processing = true ∧
    process_memorial envOk { sIncra with processing := true } =
      { state := { sIncra with processing := true },
        events := [Ev.dialogWarning "Já existe um processamento em andamento."],
        thread_started := false } :=
  ⟨rfl, c3_single_flight envOk _ rfl⟩

theorem validate_mode_report (env : Env) (s : GuiState) (e : Ev)
    (h : validate_mode_inputs env s = some e) : validationReport e := by
  unfold validate_mode_inputs at h
  cases hm : s.modo <;> simp only [hm] at h
  · by_cases h1 : s.pdf_path = []
    · rw [if_pos h1] at h
      injection h with h2
      exact Or.inr (Or.inl h2.symm)
    · rw [if_neg h1] at h
      by_cases h2 : env.file_exists s.pdf_path = false
      · rw [if_pos h2] at h
        injection h with h3
        exact Or.inr (Or.inr (Or.inl h3.symm))
      · rw [if_neg h2] at h
        cases h
  · by_cases h1 : s.prenotacao = ""
    · rw [if_pos h1] at h
      injection h with h2
      exact Or.inr (Or.inr (Or.inr (Or.inl h2.symm)))
    · rw [if_neg h1] at h
      cases h

theorem validate_inputs_report (env : Env) (s : GuiState) (e : Ev)
    (h : validate_inputs env s = some e) : validationReport e := by
  unfold validate_inputs at h
  by_cases hkey : s.api_key = ""
  · rw [if_pos hkey] at h
    injection h with h2
    exact Or.inl h2.symm
  · rw [if_neg hkey] at h
    cases hm : validate_mode_inputs env s with
    | some e2 =>
      simp only [hm] at h
      injection h with h2
      exact h2 ▸ validate_mode_report env s e2 hm
    | none =>
      simp only [hm] at h
      by_cases hfmt : s.gerar_excel = false ∧ s.gerar_word = false
      · rw [if_pos hfmt] at h
        injection h with h2
        exact Or.inr (Or.inr (Or.inr (Or.inr h2.symm)))
      · rw [if_neg hfmt] at h
        cases h

/-- Claim C7: a run request with a missing extraction-service credential or
with neither output format selected fails synchronously with a validation
dialog, before any thread, pipeline stage, network access or file work
starts, and leaves the state unchanged. -/
theorem c7_validation_sync (env : Env) (s : GuiState)
    (hidle : s.processing = false)
    (hbad : s.api_key = "" ∨ (s.gerar_excel = false ∧ s.gerar_word = false)) :
    ∃ e, process_memorial env s = { state := s, events := [e], thread_started := false } ∧
      validationReport e := by
  have hv : ∃ e, validate_inputs env s = some e := by
    rcases hbad with hkey | ⟨hx, hw⟩
    · exact ⟨_, by unfold validate_inputs; rw [if_pos hkey]⟩
    · unfold validate_inputs
      by_cases hkey : s.api_key = ""
      · rw [if_pos hkey]
        exact ⟨_, rfl⟩
      · rw [if_neg hkey]
        cases hm : validate_mode_inputs env s with
        | some e => exact ⟨e, by simp only [hm]⟩
        | none =>
          refine ⟨Ev.dialogWarning "Selecione pelo menos um tipo de arquivo para gerar!", ?_⟩
          simp only [hm]
          rw [if_pos ⟨hx, hw⟩]
  obtain ⟨e, he⟩ := hv
  refine ⟨e, ?_, validate_inputs_report env s e he⟩
  unfold process_memorial
  rw [if_neg (by simp [hidle])]
  simp only [he]

theorem c7_witness :
    ({ sIncra with api_key := "" } : GuiState).processing = false ∧
    ∃ e, process_memorial envOk { sIncra with api_key := "" } =
      { state := { sIncra with api_key := "" }, events := [e],
        thread_started := false } ∧
      validationReport e :=
  ⟨rfl, c7_validation_sync envOk _ rfl (Or.inl rfl)⟩

/-- Claim C10: every `process_thread` run, successful or failed, ends with
the in-flight flag cleared and the start button re-enabled, so a later run
request is not blocked by a finished run. -/
theorem c10_inflight_reset (env : Env) (s : GuiState) :
    (process_thread env s).processing_after = false ∧
    (process_thread env s).btn_enabled_after = true ∧
    ∃ pre, (process_thread env s).events = pre ++ [Ev.btnEnable] := by
  unfold process_thread
  cases h : tryBody env s with
  | mk evs r =>
    cases r with
    | ok names => exact ⟨rfl, rfl, evs, rfl⟩
    | error m => exact ⟨rfl, rfl, evs ++ errEvents m, by simp⟩

/-- Claim C4: in an INCRA-mode run whose network reachability probe returns
false, the pipeline aborts with the network-unavailable failure before any
staging or conversion is attempted, and the run writes zero files. -/
theorem c4_network_probe_abort (env : Env) (s : GuiState)
    (hmode : s.modo = Mode.incra) (hnet : env.testar_acesso_rede = false) :
    (process_thread env s).outcome = Except.error (msgNetErr env.base_path) ∧
    Ev.work Stage.stageCopy ∉ (process_thread env s).events ∧
    Ev.work Stage.convert ∉ (process_thread env s).events ∧
    ∀ (k : FileKind) (p : PathT), Ev.fileWrite k p ∉ (process_thread env s).events := by
  have hbody : tryBody env s =
      (attemptEvents Stage.netProbe [("🔌 Testando acesso à rede INCRA...", "incra")],
        Except.error (msgNetErr env.base_path)) := by
    unfold tryBody incraBody
    simp [hmode, hnet]
  unfold process_thread
  rw [hbody]
  refine ⟨rfl, by simp [attemptEvents, errEvents], by simp [attemptEvents, errEvents], ?_⟩
  intro k p
  simp [attemptEvents, errEvents]

theorem c4_witness :
    (sIncra.modo = Mode.incra ∧ envDown.testar_acesso_rede = false) ∧
    (process_thread envDown sIncra).outcome = Except.error (msgNetErr envDown.base_path) ∧
    Ev.work Stage.stageCopy ∉ (process_thread envDown sIncra).events ∧
    Ev.work Stage.convert ∉ (process_thread envDown sIncra).events ∧
    ∀ (k : FileKind) (p : PathT), Ev.fileWrite k p ∉ (process_thread envDown sIncra).events :=
  ⟨⟨rfl, rfl⟩, c4_network_probe_abort envDown sIncra rfl rfl⟩

/-- Claim C8: every failed run ends with exactly the error-handler events:
the raised message surfaced verbatim to the user through the error log
line, then the progress reset to 0 with the terminal failure status; no
pipeline work happens after the failure.  (The handler's deferred error
dialog is not among the events: its callback reads the deleted
except-target and raises `NameError`, so the program never shows it.) -/
theorem c8_failure_reporting (env : Env) (s : GuiState) (m : String)
    (hfail : (process_thread env s).outcome = Except.error m) :
    ∃ pre, (process_thread env s).events = pre ++ (errEvents m ++ [Ev.btnEnable]) ∧
      (∀ st : Stage, Ev.work st ∉ errEvents m ++ [Ev.btnEnable]) := by
  unfold process_thread at hfail ⊢
  cases h : tryBody env s with
  | mk evs r =>
    rw [h] at hfail
    cases r with
    | ok names => exact absurd hfail (by simp)
    | error m2 =>
      simp only [Except.error.injEq] at hfail
      subst hfail
      refine ⟨evs, ?_, by intro st; simp [errEvents]⟩
      simp

theorem c8_witness :
    (process_thread envDown sIncra).outcome = Except.error (msgNetErr "Z:") ∧
    ∃ pre, (process_thread envDown sIncra).events =
      pre ++ (errEvents (msgNetErr "Z:") ++ [Ev.btnEnable]) ∧
      (∀ st : Stage, Ev.work st ∉ errEvents (msgNetErr "Z:") ++ [Ev.btnEnable]) :=
  ⟨by decide, c8_failure_reporting envDown sIncra (msgNetErr "Z:") (by decide)⟩

theorem goodTrace_normalBody (env : Env) (s : GuiState) :
    goodTrace (normalBody env s).1 := by
  simp only [normalBody]
  cases hr : env.extract_table_from_pdf s.pdf_path s.api_key with
  | error m => exact goodTrace_attempt _ _
  | ok td => exact goodTrace_attempt _ _

theorem goodTrace_excelStep (env : Env) (s : GuiState) (td : TableData)
    (d : PathT) (p : String) : goodTrace (excelStep env s td d p).1 := by
  simp only [excelStep]
  by_cases hx : s.gerar_excel = true
  · rw [if_pos hx]
    cases hr : env.create_excel_file td (d ++ [p ++ ".xlsx"]) with
    | error m => exact goodTrace_attempt _ _
    | ok u =>
      exact goodTrace_append (goodTrace_attempt _ _)
        (goodTrace_of_no_work (by intro st; simp))
  · rw [if_neg hx]
    exact goodTrace_of_no_work (by intro st; simp)

theorem goodTrace_wordStep (env : Env) (s : GuiState) (td : TableData)
    (d : PathT) (p : String) : goodTrace (wordStep env s td d p).1 := by
  simp only [wordStep]
  by_cases hx : s.gerar_word = true
  · rw [if_pos hx]
    cases hr : env.create_word_file td (d ++ [p ++ ".docx"]) with
    | error m => exact goodTrace_attempt _ _
    | ok u =>
      exact goodTrace_append (goodTrace_attempt _ _)
        (goodTrace_of_no_work (by intro st; simp))
  · rw [if_neg hx]
    exact goodTrace_of_no_work (by intro st; simp)

theorem goodTrace_renderTail (env : Env) (s : GuiState) (td : TableData)
    (d : PathT) (p : String) : goodTrace (renderTail env s td d p).1 := by
  have hX := goodTrace_excelStep env s td d p
  have hW := goodTrace_wordStep env s td d p
  simp only [renderTail]
  cases hx : excelStep env s td d p with
  | mk eX rX =>
    rw [hx] at hX
    cases rX with
    | error m =>
      exact goodTrace_append (goodTrace_of_no_work (by intro st; simp)) hX
    | ok ax =>
      cases hw : wordStep env s td d p with
      | mk eW rW =>
        rw [hw] at hW
        cases rW with
        | error m =>
          exact goodTrace_append
            (goodTrace_append (goodTrace_of_no_work (by intro st; simp)) hX) hW
        | ok aw =>
          exact goodTrace_append
            (goodTrace_append
              (goodTrace_append (goodTrace_of_no_work (by intro st; simp)) hX) hW)
            (goodTrace_of_no_work (by intro st; simp))

theorem goodTrace_incraBody (env : Env) (s : GuiState) :
    goodTrace (incraBody env s).1 := by
  simp only [incraBody]
  repeat' split
  all_goals dsimp only
  all_goals
    repeat'
      first
      | exact goodTrace_attempt _ _
      | (apply goodTrace_of_no_work; intro st; simp; done)
      | apply goodTrace_append

theorem goodTrace_tryBody (env : Env) (s : GuiState) :
    goodTrace (tryBody env s).1 := by
  simp only [tryBody]
  cases hmodo : s.modo
  · have hB := goodTrace_normalBody env s
    cases hb : normalBody env s with
    | mk eB rB =>
      rw [hb] at hB
      cases rB with
      | error m => exact hB
      | ok v =>
        obtain ⟨td, d, p⟩ := v
        exact goodTrace_append hB (goodTrace_renderTail env s td d p)
  · have hB := goodTrace_incraBody env s
    cases hb : incraBody env s with
    | mk eB rB =>
      rw [hb] at hB
      cases rB with
      | error m => exact hB
      | ok v =>
        obtain ⟨td, d, p⟩ := v
        exact goodTrace_append hB (goodTrace_renderTail env s td d p)

theorem goodTrace_process_thread (env : Env) (s : GuiState) :
    goodTrace (process_thread env s).events := by
  have hT := goodTrace_tryBody env s
  unfold process_thread
  cases h : tryBody env s with
  | mk evs r =>
    rw [h] at hT
    cases r with
    | ok names =>
      exact goodTrace_append hT (goodTrace_of_no_work (by intro st; simp))
    | error m =>
      exact goodTrace_append
        (goodTrace_append hT (goodTrace_of_no_work (by intro st; simp [errEvents])))
        (goodTrace_of_no_work (by intro st; simp))

/-- Claim C9: every stage of every run has its progress percentage and
status string emitted before the stage's work is attempted, so the report
is delivered even when the stage then fails. -/
theorem c9_progress_before_work (env : Env) (s : GuiState) (st : Stage)
    (h : Ev.work st ∈ (process_thread env s).events) :
    evBefore (Ev.progress (stagePct st) (stageStatus st)) (Ev.work st)
      (process_thread env s).events :=
  goodTrace_process_thread env s st h

theorem c9_witness :
    Ev.work Stage.netProbe ∈ (process_thread envDown sIncra).events ∧
    evBefore (Ev.progress (stagePct Stage.netProbe) (stageStatus Stage.netProbe))
      (Ev.work Stage.netProbe) (process_thread envDown sIncra).events :=
  ⟨by decide, c9_progress_before_work envDown sIncra Stage.netProbe (by decide)⟩

theorem work_normalBody (env : Env) (s : GuiState) (st : Stage)
    (h : Ev.work st ∈ (normalBody env s).1) : st = Stage.extractDirect := by
  simp only [normalBody] at h
  cases hr : env.extract_table_from_pdf s.pdf_path s.api_key <;> rw [hr] at h <;>
    simpa [attemptEvents] using h

theorem work_excelStep (env : Env) (s : GuiState) (td : TableData) (d : PathT)
    (p : String) (st : Stage) (h : Ev.work st ∈ (excelStep env s td d p).1) :
    st = Stage.writeExcel := by
  simp only [excelStep] at h
  by_cases hx : s.gerar_excel = true
  · rw [if_pos hx] at h
    cases hr : env.create_excel_file td (d ++ [p ++ ".xlsx"]) <;> rw [hr] at h <;>
      simpa [attemptEvents] using h
  · rw [if_neg hx] at h
    simp at h

theorem work_wordStep (env : Env) (s : GuiState) (td : TableData) (d : PathT)
    (p : String) (st : Stage) (h : Ev.work st ∈ (wordStep env s td d p).1) :
    st = Stage.writeWord := by
  simp only [wordStep] at h
  by_cases hx : s.gerar_word = true
  · rw [if_pos hx] at h
    cases hr : env.create_word_file td (d ++ [p ++ ".docx"]) <;> rw [hr] at h <;>
      simpa [attemptEvents] using h
  · rw [if_neg hx] at h
    simp at h

theorem work_renderTail (env : Env) (s : GuiState) (td : TableData) (d : PathT)
    (p : String) (st : Stage) (h : Ev.work st ∈ (renderTail env s td d p).1) :
    st = Stage.writeExcel ∨ st = Stage.writeWord := by
  simp only [renderTail] at h
  cases hx : excelStep env s td d p with
  | mk eX rX =>
    rw [hx] at h
    cases rX with
    | error m =>
      simp at h
      exact Or.inl (work_excelStep env s td d p st (by rw [hx]; exact h))
    | ok ax =>
      cases hw : wordStep env s td d p with
      | mk eW rW =>
        rw [hw] at h
        cases rW with
        | error m =>
          simp at h
          rcases h with h | h
          · exact Or.inl (work_excelStep env s td d p st (by rw [hx]; exact h))
          · exact Or.inr (work_wordStep env s td d p st (by rw [hw]; exact h))
        | ok aw =>
          simp at h
          rcases h with h | h
          · exact Or.inl (work_excelStep env s td d p st (by rw [hx]; exact h))
          · exact Or.inr (work_wordStep env s td d p st (by rw [hw]; exact h))

theorem incraBody_after_fmt (env : Env) (s : GuiState) (st : Stage)
    (hst : st = Stage.search ∨ st = Stage.stageCopy)
    (hmem : Ev.work st ∈ (incraBody env s).1) :
    (∃ f, formatar_prenotacao s.prenotacao = Except.ok f) ∧
    evBefore (Ev.work Stage.fmtPren) (Ev.work st) (incraBody env s).1 := by
  simp only [incraBody] at hmem ⊢
  by_cases ht : env.testar_acesso_rede = false
  · rw [if_pos ht] at hmem ⊢
    rcases hst with h | h <;> subst h <;> simp [attemptEvents] at hmem
  · rw [if_neg ht] at hmem ⊢
    cases hf : formatar_prenotacao s.prenotacao with
    | error m =>
      rw [hf] at hmem
      dsimp only at hmem
      rcases hst with h | h <;> subst h <;> simp [attemptEvents] at hmem
    | ok f =>
      rw [hf] at hmem
      dsimp only at hmem ⊢
      refine ⟨⟨f, rfl⟩, ?_⟩
      cases hb : env.buscar_arquivo_incra f with
      | none =>
        rw [hb] at hmem
        dsimp only at hmem ⊢
        rcases hst with h | h <;> subst h
        · exact evBefore_of_mem_append (by simp [attemptEvents]) (by simp [attemptEvents])
        · simp [attemptEvents] at hmem
      | some tiff =>
        rw [hb] at hmem
        dsimp only at hmem ⊢
        cases hc : env.copiar_para_downloads tiff f with
        | error m =>
          rw [hc] at hmem
          dsimp only at hmem ⊢
          rcases hst with h | h <;> subst h
          · exact evBefore_append_left (evBefore_append_left
              (evBefore_of_mem_append (by simp [attemptEvents]) (by simp [attemptEvents])))
          · exact evBefore_of_mem_append (by simp [attemptEvents]) (by simp [attemptEvents])
        | ok loc =>
          rw [hc] at hmem
          dsimp only at hmem ⊢
          cases hv : env.converter_tiff_para_pdf loc with
          | error m =>
            rw [hv] at hmem
            dsimp only at hmem ⊢
            rcases hst with h | h <;> subst h
            · exact evBefore_append_left (evBefore_append_left (evBefore_append_left
                (evBefore_append_left (evBefore_of_mem_append (by simp [attemptEvents])
                  (by simp [attemptEvents])))))
            · exact evBefore_append_left (evBefore_append_left
                (evBefore_of_mem_append (by simp [attemptEvents]) (by simp [attemptEvents])))
          | ok pdf =>
            rw [hv] at hmem
            dsimp only at hmem ⊢
            cases he : env.extrair_memorial_incra pdf s.api_key with
            | error m =>
              rw [he] at hmem
              dsimp only at hmem ⊢
              rcases hst with h | h <;> subst h
              · exact evBefore_append_left (evBefore_append_left (evBefore_append_left
                  (evBefore_append_left (evBefore_append_left (evBefore_append_left
                    (evBefore_of_mem_append (by simp [attemptEvents])
                      (by simp [attemptEvents])))))))
              · exact evBefore_append_left (evBefore_append_left (evBefore_append_left
                  (evBefore_append_left (evBefore_of_mem_append (by simp [attemptEvents])
                    (by simp [attemptEvents])))))
            | ok td =>
              rw [he] at hmem
              dsimp only at hmem ⊢
              rcases hst with h | h <;> subst h
              · exact evBefore_append_left (evBefore_append_left (evBefore_append_left
                  (evBefore_append_left (evBefore_append_left (evBefore_append_left
                    (evBefore_of_mem_append (by simp [attemptEvents])
                      (by simp [attemptEvents])))))))
              · exact evBefore_append_left (evBefore_append_left (evBefore_append_left
                  (evBefore_append_left (evBefore_of_mem_append (by simp [attemptEvents])
                    (by simp [attemptEvents])))))

theorem tryBody_after_fmt (env : Env) (s : GuiState) (st : Stage)
    (hst : st = Stage.search ∨ st = Stage.stageCopy)
    (hmem : Ev.work st ∈ (tryBody env s).1) :
    (∃ f, formatar_prenotacao s.prenotacao = Except.ok f) ∧
    evBefore (Ev.work Stage.fmtPren) (Ev.work st) (tryBody env s).1 := by
  simp only [tryBody] at hmem ⊢
  cases hmodo : s.modo
  · rw [hmodo] at hmem
    dsimp only at hmem
    cases hb : normalBody env s with
    | mk eB rB =>
      rw [hb] at hmem
      cases rB with
      | error m =>
        have heq : st = Stage.extractDirect :=
          work_normalBody env s st (by rw [hb]; exact hmem)
        rcases hst with h | h <;> subst h <;> simp at heq
      | ok v =>
        obtain ⟨td, d, p⟩ := v
        dsimp only at hmem
        simp only [List.mem_append] at hmem
        rcases hmem with hm | hm
        · have heq : st = Stage.extractDirect :=
            work_normalBody env s st (by rw [hb]; exact hm)
          rcases hst with h | h <;> subst h <;> simp at heq
        · have heq := work_renderTail env s td d p st hm
          rcases hst with h | h <;> subst h <;> simp at heq
  · rw [hmodo] at hmem
    dsimp only at hmem ⊢
    cases hb : incraBody env s with
    | mk eB rB =>
      rw [hb] at hmem
      cases rB with
      | error m =>
        have H := incraBody_after_fmt env s st hst (by rw [hb]; exact hmem)
        have H2 := H.2
        rw [hb] at H2
        exact ⟨H.1, H2⟩
      | ok v =>
        obtain ⟨td, d, p⟩ := v
        dsimp only at hmem ⊢
        simp only [List.mem_append] at hmem
        rcases hmem with hm | hm
        · have H := incraBody_after_fmt env s st hst (by rw [hb]; exact hm)
          have H2 := H.2
          rw [hb] at H2
          exact ⟨H.1, evBefore_append_left H2⟩
        · have heq := work_renderTail env s td d p st hm
          rcases hst with h | h <;> subst h <;> simp at heq

/-- The spec's claim that validation precedes every network-store step is
false on the code: in a successful INCRA run the network reachability probe
is performed, and performed strictly before the prenotação is formatted, so
no occurrence of the formatting work precedes the probe. -/
theorem c5_counterexample :
    sIncra.modo = Mode.incra ∧
    Ev.work Stage.netProbe ∈ (process_thread envOk sIncra).events ∧
    List.Sublist [Ev.work Stage.netProbe, Ev.work Stage.fmtPren]
      (process_thread envOk sIncra).events ∧
    ¬ evBefore (Ev.work Stage.fmtPren) (Ev.work Stage.netProbe)
        (process_thread envOk sIncra).events :=
  ⟨rfl, by decide, by decide, by decide⟩

/-- Claim C5 (amended): in every run, every network-store step other than
the initial reachability probe — the shard-folder search and the staging
copy — happens only after the prenotação formatting work, and only when
that formatting succeeded; the probe itself, however, precedes
validation. -/
theorem c5_amended (env : Env) (s : GuiState) (st : Stage)
    (hst : st = Stage.search ∨ st = Stage.stageCopy)
    (hmem : Ev.work st ∈ (process_thread env s).events) :
    (∃ f, formatar_prenotacao s.prenotacao = Except.ok f) ∧
    evBefore (Ev.work Stage.fmtPren) (Ev.work st) (process_thread env s).events := by
  unfold process_thread at hmem ⊢
  cases h : tryBody env s with
  | mk evs r =>
    rw [h] at hmem
    cases r with
    | ok names =>
      dsimp only at hmem ⊢
      simp only [List.mem_append] at hmem
      rcases hmem with hm | hm
      · have hm2 : Ev.work st ∈ (tryBody env s).1 := by rw [h]; exact hm
        have H := tryBody_after_fmt env s st hst hm2
        have H2 := H.2
        rw [h] at H2
        exact ⟨H.1, evBefore_append_left H2⟩
      · simp at hm
    | error m =>
      dsimp only at hmem ⊢
      simp only [List.mem_append] at hmem
      rcases hmem with (hm | hm) | hm
      · have hm2 : Ev.work st ∈ (tryBody env s).1 := by rw [h]; exact hm
        have H := tryBody_after_fmt env s st hst hm2
        have H2 := H.2
        rw [h] at H2
        exact ⟨H.1, evBefore_append_left (evBefore_append_left H2)⟩
      · simp [errEvents] at hm
      · simp at hm

theorem c5_witness :
    Ev.work Stage.search ∈ (process_thread envOk sIncra).events ∧
    (∃ f, formatar_prenotacao sIncra.prenotacao = Except.ok f) ∧
    evBefore (Ev.work Stage.fmtPren) (Ev.work Stage.search)
      (process_thread envOk sIncra).events :=
  ⟨by decide, c5_amended envOk sIncra Stage.search (Or.inl rfl) (by decide)⟩

theorem writesOf_append (k : FileKind) (l₁ l₂ : List Ev) :
    writesOf k (l₁ ++ l₂) = writesOf k l₁ ++ writesOf k l₂ := by
  simp [writesOf]

theorem writesOf_nil (k : FileKind) : writesOf k [] = [] := rfl

theorem writesOf_cons_progress (k : FileKind) (a : Nat) (b : String) (l : List Ev) :
    writesOf k (Ev.progress a b :: l) = writesOf k l := rfl

theorem writesOf_cons_logMsg (k : FileKind) (a b : String) (l : List Ev) :
    writesOf k (Ev.logMsg a b :: l) = writesOf k l := rfl

theorem writesOf_cons_work (k : FileKind) (st : Stage) (l : List Ev) :
    writesOf k (Ev.work st :: l) = writesOf k l := rfl

theorem writesOf_cons_dialogInfo (k : FileKind) (a : String) (l : List Ev) :
    writesOf k (Ev.dialogInfo a :: l) = writesOf k l := rfl

theorem writesOf_cons_dialogError (k : FileKind) (a : String) (l : List Ev) :
    writesOf k (Ev.dialogError a :: l) = writesOf k l := rfl

theorem writesOf_cons_dialogWarning (k : FileKind) (a : String) (l : List Ev) :
    writesOf k (Ev.dialogWarning a :: l) = writesOf k l := rfl

theorem writesOf_cons_btnDisable (k : FileKind) (l : List Ev) :
    writesOf k (Ev.btnDisable :: l) = writesOf k l := rfl

theorem writesOf_cons_btnEnable (k : FileKind) (l : List Ev) :
    writesOf k (Ev.btnEnable :: l) = writesOf k l := rfl

theorem writesOf_cons_fileWrite (k k2 : FileKind) (p : PathT) (l : List Ev) :
    writesOf k (Ev.fileWrite k2 p :: l) =
      if k2 = k then p :: writesOf k l else writesOf k l := by
  by_cases h : k2 = k <;> simp [writesOf, h]

theorem writesOf_logsMap (k : FileKind) (logs : List (String × String)) :
    writesOf k (logs.map fun q => Ev.logMsg q.1 q.2) = [] := by
  induction logs with
  | nil => rfl
  | cons q rest ih =>
    rw [List.map_cons, writesOf_cons_logMsg]
    exact ih

theorem writesOf_attempt (k : FileKind) (stg : Stage) (logs : List (String × String)) :
    writesOf k (attemptEvents stg logs) = [] := by
  unfold attemptEvents
  rw [writesOf_cons_progress, writesOf_append, writesOf_logsMap]
  rfl

theorem excelStep_ok (env : Env) (s : GuiState) (td : TableData) (d : PathT)
    (p : String) (eX : List Ev) (ax : Option String)
    (h : excelStep env s td d p = (eX, Except.ok ax)) :
    writesOf FileKind.excel eX =
      (if s.gerar_excel = true then [d ++ [p ++ ".xlsx"]] else []) ∧
    writesOf FileKind.word eX = [] ∧
    writesOf FileKind.converted eX = [] ∧
    writesOf FileKind.staged eX = [] := by
  simp only [excelStep] at h
  by_cases hx : s.gerar_excel = true
  · rw [if_pos hx] at h
    cases hr : env.create_excel_file td (d ++ [p ++ ".xlsx"]) <;> rw [hr] at h
    · cases h
    · injection h with h1 h2
      subst h1
      rw [if_pos hx]
      refine ⟨?_, ?_, ?_, ?_⟩ <;>
        simp [writesOf_append, writesOf_attempt, writesOf_cons_fileWrite,
          writesOf_cons_logMsg, writesOf_nil]
  · rw [if_neg hx] at h
    injection h with h1 h2
    subst h1
    rw [if_neg hx]
    exact ⟨rfl, rfl, rfl, rfl⟩

theorem wordStep_ok (env : Env) (s : GuiState) (td : TableData) (d : PathT)
    (p : String) (eW : List Ev) (aw : Option String)
    (h : wordStep env s td d p = (eW, Except.ok aw)) :
    writesOf FileKind.word eW =
      (if s.gerar_word = true then [d ++ [p ++ ".docx"]] else []) ∧
    writesOf FileKind.excel eW = [] ∧
    writesOf FileKind.converted eW = [] ∧
    writesOf FileKind.staged eW = [] := by
  simp only [wordStep] at h
  by_cases hx : s.gerar_word = true
  · rw [if_pos hx] at h
    cases hr : env.create_word_file td (d ++ [p ++ ".docx"]) <;> rw [hr] at h
    · cases h
    · injection h with h1 h2
      subst h1
      rw [if_pos hx]
      refine ⟨?_, ?_, ?_, ?_⟩ <;>
        simp [writesOf_append, writesOf_attempt, writesOf_cons_fileWrite,
          writesOf_cons_logMsg, writesOf_nil]
  · rw [if_neg hx] at h
    injection h with h1 h2
    subst h1
    rw [if_neg hx]
    exact ⟨rfl, rfl, rfl, rfl⟩

theorem renderTail_ok (env : Env) (s : GuiState) (td : TableData) (d : PathT)
    (p : String) (eT : List Ev) (names : List String)
    (h : renderTail env s td d p = (eT, Except.ok names)) :
    writesOf FileKind.excel eT =
      (if s.gerar_excel = true then [d ++ [p ++ ".xlsx"]] else []) ∧
    writesOf FileKind.word eT =
      (if s.gerar_word = true then [d ++ [p ++ ".docx"]] else []) ∧
    writesOf FileKind.converted eT = [] ∧
    writesOf FileKind.staged eT = [] := by
  simp only [renderTail] at h
  cases hx : excelStep env s td d p with
  | mk eX rX =>
    rw [hx] at h
    cases rX with
    | error m => cases h
    | ok ax =>
      cases hw : wordStep env s td d p with
      | mk eW rW =>
        rw [hw] at h
        cases rW with
        | error m => cases h
        | ok aw =>
          injection h with h1 h2
          subst h1
          obtain ⟨hx1, hx2, hx3, hx4⟩ := excelStep_ok env s td d p eX ax hx
          obtain ⟨hw1, hw2, hw3, hw4⟩ := wordStep_ok env s td d p eW aw hw
          refine ⟨?_, ?_, ?_, ?_⟩ <;>
            simp [writesOf_append, writesOf_attempt, writesOf_cons_fileWrite,
              writesOf_cons_logMsg, writesOf_cons_progress, writesOf_cons_dialogInfo,
              writesOf_nil, hx1, hx2, hx3, hx4, hw1, hw2, hw3, hw4]

/-- Claim C6: every successful run writes its artifacts under the expected
names — direct mode writes `output.xlsx` / `output.docx` (as selected) in
the directory of the source PDF and nothing else, and INCRA mode writes
`prenotacao_<formatted>.xlsx` / `.docx` (as selected) in the directory of
the converted PDF. -/
theorem c6_output_naming (env : Env) (s : GuiState) (names : List String)
    (hok : (process_thread env s).outcome = Except.ok names) :
    (s.modo = Mode.normal →
      writesOf FileKind.excel (process_thread env s).events =
        (if s.gerar_excel = true then [s.pdf_path.dropLast ++ ["output.xlsx"]] else []) ∧
      writesOf FileKind.word (process_thread env s).events =
        (if s.gerar_word = true then [s.pdf_path.dropLast ++ ["output.docx"]] else []) ∧
      writesOf FileKind.converted (process_thread env s).events = [] ∧
      writesOf FileKind.staged (process_thread env s).events = []) ∧
    (s.modo = Mode.incra →
      ∃ f pdf, formatar_prenotacao s.prenotacao = Except.ok f ∧
        writesOf FileKind.converted (process_thread env s).events = [pdf] ∧
        writesOf FileKind.excel (process_thread env s).events =
          (if s.gerar_excel = true then
            [pdf.dropLast ++ ["prenotacao_" ++ f ++ ".xlsx"]] else []) ∧
        writesOf FileKind.word (process_thread env s).events =
          (if s.gerar_word = true then
            [pdf.dropLast ++ ["prenotacao_" ++ f ++ ".docx"]] else [])) := by
  unfold process_thread at hok ⊢
  cases h : tryBody env s with
  | mk evs r =>
    rw [h] at hok
    cases r with
    | error m => exact absurd hok (by simp)
    | ok names2 =>
      constructor
      · intro hmodo
        simp only [tryBody, normalBody, hmodo] at h
        cases hr : env.extract_table_from_pdf s.pdf_path s.api_key with
        | error m2 =>
          rw [hr] at h
          cases h
        | ok td =>
          rw [hr] at h
          dsimp only at h
          cases ht : renderTail env s td s.pdf_path.dropLast "output" with
          | mk eT rT =>
            rw [ht] at h
            dsimp only at h
            injection h with h1 h2
            subst h1
            subst h2
            have RT := renderTail_ok env s td s.pdf_path.dropLast "output" eT names2 ht
            have ex : ("output" ++ ".xlsx" : String) = "output.xlsx" := rfl
            have ew : ("output" ++ ".docx" : String) = "output.docx" := rfl
            refine ⟨?_, ?_, ?_, ?_⟩ <;>
              simp [writesOf_append, writesOf_attempt, writesOf_cons_btnEnable,
                writesOf_nil, RT.1, RT.2.1, RT.2.2.1, RT.2.2.2, ex, ew]
      · intro hmodo
        simp only [tryBody, incraBody, hmodo] at h
        by_cases hnet : env.testar_acesso_rede = false
        · rw [if_pos hnet] at h
          cases h
        · rw [if_neg hnet] at h
          cases hf : formatar_prenotacao s.prenotacao with
          | error m2 =>
            rw [hf] at h
            cases h
          | ok f =>
            rw [hf] at h
            dsimp only at h
            cases hb : env.buscar_arquivo_incra f with
            | none =>
              rw [hb] at h
              cases h
            | some tiff =>
              rw [hb] at h
              dsimp only at h
              cases hc : env.copiar_para_downloads tiff f with
              | error m2 =>
                rw [hc] at h
                cases h
              | ok loc =>
                rw [hc] at h
                dsimp only at h
                cases hv : env.converter_tiff_para_pdf loc with
                | error m2 =>
                  rw [hv] at h
                  cases h
                | ok pdf =>
                  rw [hv] at h
                  dsimp only at h
                  cases he : env.extrair_memorial_incra pdf s.api_key with
                  | error m2 =>
                    rw [he] at h
                    cases h
                  | ok td =>
                    rw [he] at h
                    dsimp only at h
                    cases ht : renderTail env s td pdf.dropLast ("prenotacao_" ++ f) with
                    | mk eT rT =>
                      rw [ht] at h
                      dsimp only at h
                      injection h with h1 h2
                      subst h1
                      subst h2
                      have RT := renderTail_ok env s td pdf.dropLast
                        ("prenotacao_" ++ f) eT names2 ht
                      refine ⟨f, pdf, rfl, ?_, ?_, ?_⟩ <;>
                        simp [writesOf_append, writesOf_attempt, writesOf_cons_btnEnable,
                          writesOf_cons_fileWrite, writesOf_cons_logMsg, writesOf_nil,
                          RT.1, RT.2.1, RT.2.2.1, RT.2.2.2]

theorem c6_witness :
    (process_thread envOk sIncra).outcome =
      Except.ok ["📊 prenotacao_00229885.xlsx", "📝 prenotacao_00229885.docx"] ∧
    ((sIncra.modo = Mode.normal →
      writesOf FileKind.excel (process_thread envOk sIncra).events =
        (if sIncra.gerar_excel = true then
          [sIncra.pdf_path.dropLast ++ ["output.xlsx"]] else []) ∧
      writesOf FileKind.word (process_thread envOk sIncra).events =
        (if sIncra.gerar_word = true then
          [sIncra.pdf_path.dropLast ++ ["output.docx"]] else []) ∧
      writesOf FileKind.converted (process_thread envOk sIncra).events = [] ∧
      writesOf FileKind.staged (process_thread envOk sIncra).events = []) ∧
    (sIncra.modo = Mode.incra →
      ∃ f pdf, formatar_prenotacao sIncra.prenotacao = Except.ok f ∧
        writesOf FileKind.converted (process_thread envOk sIncra).events = [pdf] ∧
        writesOf FileKind.excel (process_thread envOk sIncra).events =
          (if sIncra.gerar_excel = true then
            [pdf.dropLast ++ ["prenotacao_" ++ f ++ ".xlsx"]] else []) ∧
        writesOf FileKind.word (process_thread envOk sIncra).events =
          (if sIncra.gerar_word = true then
            [pdf.dropLast ++ ["prenotacao_" ++ f ++ ".docx"]] else []))) :=
  ⟨by decide,
   c6_output_naming envOk sIncra
     ["📊 prenotacao_00229885.xlsx", "📝 prenotacao_00229885.docx"] (by decide)⟩

end Memorial
